import Mathlib

/-!
# Tag reconciliation (kafka) and the Internet Monitor sweeper

A shallow embedding of

* `internal/service/kafka/tags_gen.go` (`Tags`, `updateTags`), and
* `internal/service/internetmonitor/sweep.go` (`sweepMonitors`),

followed by the properties their specification states about them.

Go `error` values are a small inductive type; a `nil` error is `none`.
Network collaborators (the Kafka connection, the list paginator, the delete
orchestrator) are explicit arguments, and every call that is issued is
recorded in the outcome so that statements about "which calls were made" are
statements about data.
-/

set_option linter.dupNamespace false

namespace TerraformProviderAws

/-! ## Go errors -/

/-- A Go `error` value: either a plain message, or the result of `fmt.Errorf`
with a `%w` operand, which carries its formatted message and the wrapped cause. -/
inductive Error where
  | errorString (s : String)
  | wrapError (msg : String) (err : Error)
deriving DecidableEq, Repr

namespace Error

/-- The `Error()` method: the message of an error. -/
def Error : TerraformProviderAws.Error → String
  | .errorString s => s
  | .wrapError msg _ => msg

/-- The `Unwrap()` method: the wrapped cause, if any. -/
def Unwrap : TerraformProviderAws.Error → Option TerraformProviderAws.Error
  | .errorString _ => none
  | .wrapError _ err => some err

end Error

/-- The call `fmt.Errorf("<verb> (%s): %w", arg, err)`: the message is the format
with `arg` and the cause's message substituted, and the cause is wrapped. -/
def Errorf_s_w (verb arg : String) (err : Error) : Error :=
  .wrapError (verb ++ " (" ++ arg ++ "): " ++ err.Error) err

/-- The call `fmt.Errorf("<text>: %s", err)`: only the cause's message is kept. -/
def Errorf_s (text : String) (err : Error) : Error :=
  .errorString (text ++ ": " ++ err.Error)

/-! ## Tag sets (`internal/tags`) -/

namespace tftags

/-- Modelled from the spec: the tag set type `tftags.KeyValueTags` (package
`internal/tags`, outside the sources of this development). A tag set is a mapping from
tag key (string) to tag value (string) with unique keys; it is kept as the list
of its entries together with the proof that no key occurs twice. -/
structure KeyValueTags where
  entries : List (String × String)
  nodupKeys : (entries.map Prod.fst).Nodup

namespace KeyValueTags

/-- The empty tag set. -/
def empty : KeyValueTags := ⟨[], List.nodup_nil⟩

/-- Map indexing `tags[k]`: the value stored under `k`, if the key is present. -/
def get? (tags : KeyValueTags) (k : String) : Option String :=
  (tags.entries.find? (fun kv => decide (kv.1 = k))).map Prod.snd

/-- The builtin `len(tags)`. -/
def len (tags : KeyValueTags) : Nat := tags.entries.length

/-- Go `strings.HasPrefix(k, p)`. -/
def hasPrefix (p k : String) : Bool := p.data.isPrefixOf k.data

/-- Modelled from the spec: `KeyValueTags.Removed` (outside the sources of this
development): the entries of the old tag set whose key is absent from the new one or
carries a different value there, that is, the entries of old that do not
survive with an identical value into new. -/
def Removed (tags newTags : KeyValueTags) : KeyValueTags :=
  ⟨tags.entries.filter (fun kv => decide (newTags.get? kv.1 ≠ some kv.2)),
    (List.Sublist.map Prod.fst (List.filter_sublist _)).nodup tags.nodupKeys⟩

/-- Modelled from the spec: `KeyValueTags.Updated` (outside the sources of this
development): the entries of the new tag set that are added or changed relative to
the old one. -/
def Updated (tags newTags : KeyValueTags) : KeyValueTags :=
  ⟨newTags.entries.filter (fun kv => decide (tags.get? kv.1 ≠ some kv.2)),
    (List.Sublist.map Prod.fst (List.filter_sublist _)).nodup newTags.nodupKeys⟩

/-- Modelled from the spec: `KeyValueTags.IgnoreSystem` (outside the sources
of this development): drops every entry whose key is under the reserved (system) key
prefix of the service; `sys` is that prefix for the service at hand. -/
def IgnoreSystem (sys : String) (tags : KeyValueTags) : KeyValueTags :=
  ⟨tags.entries.filter (fun kv => !hasPrefix sys kv.1),
    (List.Sublist.map Prod.fst (List.filter_sublist _)).nodup tags.nodupKeys⟩

/-- Modelled from the spec: `KeyValueTags.Keys` (outside the sources of this
development): the keys of the tag set. -/
def Keys (tags : KeyValueTags) : List String := tags.entries.map Prod.fst

/-- Modelled from the spec: `KeyValueTags.Map` (outside the sources of this
development): the tag set as a plain string-to-string map. -/
def Map (tags : KeyValueTags) : List (String × String) := tags.entries

end KeyValueTags

end tftags

/-! ## Kafka tagging (`internal/service/kafka/tags_gen.go`) -/

namespace kafka

open tftags

/-- The request `kafka.UntagResourceInput`. Both fields are set from non-nil
values (`aws.String`, `aws.StringSlice`), so they are kept dereferenced. -/
structure UntagResourceInput where
  ResourceArn : String
  TagKeys : List String
deriving DecidableEq, Repr

/-- The request `kafka.TagResourceInput`. `aws.StringMap` wraps every value in
a non-nil pointer, so the wire map is kept as its key/value pairs. -/
structure TagResourceInput where
  ResourceArn : String
  Tags : List (String × String)
deriving DecidableEq, Repr

/-- An API call on the Kafka connection, with its request. -/
inductive Call where
  | UntagResource (input : UntagResourceInput)
  | TagResource (input : TagResourceInput)
deriving DecidableEq, Repr

/-- The `ResourceArn` a call carries. -/
def Call.ResourceArn : Call → String
  | .UntagResource input => input.ResourceArn
  | .TagResource input => input.ResourceArn

/-- Whether a call is an `UntagResource` call. -/
def Call.isUntag : Call → Bool
  | .UntagResource _ => true
  | .TagResource _ => false

/-- Whether a call is a `TagResource` call. -/
def Call.isTag : Call → Bool
  | .UntagResource _ => false
  | .TagResource _ => true

/-- The tag keys a call names: the keys to delete of an untag call, the keys of
the pairs to write of a tag call. -/
def Call.keys : Call → List String
  | .UntagResource input => input.TagKeys
  | .TagResource input => input.Tags.map Prod.fst

/-- A call that was issued, with the error it returned (`none` for `nil`). -/
structure Issued where
  call : Call
  err : Option Error
deriving DecidableEq, Repr

/-- The two methods of `kafkaiface.KafkaAPI` that `updateTags` uses. The
service is an external collaborator: each method maps the request and the
state of the service to the returned error and the next state. -/
structure KafkaAPI (σ : Type) where
  UntagResourceWithContext : UntagResourceInput → σ → Option Error × σ
  TagResourceWithContext : TagResourceInput → σ → Option Error × σ

/-- What a run of `updateTags` leaves behind: the returned error, the calls it
issued in order, and the state of the service afterwards. -/
structure Outcome (σ : Type) where
  err : Option Error
  issued : List Issued
  state : σ

/-- The calls of an outcome, without their results. -/
def Outcome.calls {σ : Type} (r : Outcome σ) : List Call := r.issued.map Issued.call

/-- `Tags` returns kafka service tags: `aws.StringMap(tags.Map())`. -/
def Tags (tags : KeyValueTags) : List (String × String) := tags.Map

/-- `updateTags` updates kafka service tags. `sys` is the key prefix that
`IgnoreSystem(names.Kafka)` reserves; `oldTags` and `newTags` are the tag sets
`tftags.New` builds from the two maps the caller passes. -/
def updateTags {σ : Type} (sys : String) (conn : KafkaAPI σ) (identifier : String)
    (oldTags newTags : KeyValueTags) (s : σ) : Outcome σ :=
  let removedTags := oldTags.Removed newTags
  let removedTags := removedTags.IgnoreSystem sys
  let untagged : Outcome σ :=
    if removedTags.len > 0 then
      let input : UntagResourceInput :=
        { ResourceArn := identifier, TagKeys := removedTags.Keys }
      let r := conn.UntagResourceWithContext input s
      { err := r.1.map (Errorf_s_w "untagging resource" identifier),
        issued := [⟨.UntagResource input, r.1⟩],
        state := r.2 }
    else { err := none, issued := [], state := s }
  match untagged.err with
  | some err => { err := some err, issued := untagged.issued, state := untagged.state }
  | none =>
    let updatedTags := oldTags.Updated newTags
    let updatedTags := updatedTags.IgnoreSystem sys
    if updatedTags.len > 0 then
      let input : TagResourceInput :=
        { ResourceArn := identifier, Tags := Tags updatedTags }
      let r := conn.TagResourceWithContext input untagged.state
      { err := r.1.map (Errorf_s_w "tagging resource" identifier),
        issued := untagged.issued ++ [⟨.TagResource input, r.1⟩],
        state := r.2 }
    else { err := none, issued := untagged.issued, state := untagged.state }

/-- The remote tag store: for each resource identifier, the value stored under
each tag key, if any. -/
abbrev TagStore := String → String → Option String

/-- A tagging service on which every call succeeds: `UntagResource` deletes the
listed keys of the named resource, `TagResource` upserts the listed pairs. -/
def storeAPI : KafkaAPI TagStore where
  UntagResourceWithContext := fun input st =>
    (none, fun arn k =>
      if arn = input.ResourceArn ∧ k ∈ input.TagKeys then none else st arn k)
  TagResourceWithContext := fun input st =>
    (none, fun arn k =>
      if arn = input.ResourceArn then
        match input.Tags.find? (fun kv => decide (kv.1 = k)) with
        | some kv => some kv.2
        | none => st arn k
      else st arn k)

/-- A service that only answers: every untag call returns `untagErr` and every
tag call returns `tagErr`. -/
def constAPI (untagErr tagErr : Option Error) : KafkaAPI Unit where
  UntagResourceWithContext := fun _ s => (untagErr, s)
  TagResourceWithContext := fun _ s => (tagErr, s)

end kafka

/-! ## Internet Monitor sweeper (`internal/service/internetmonitor/sweep.go`) -/

namespace internetmonitor

/-- A monitor summary as listed by the service; only the name is read. -/
structure Monitor where
  MonitorName : Option String
deriving DecidableEq, Repr

/-- One page of `ListMonitors`. -/
structure ListMonitorsOutput where
  Monitors : List Monitor
  NextToken : Option String
deriving DecidableEq, Repr

/-- What one `ListMonitors` request returns: a page or an error. -/
abbrev Response := Except Error ListMonitorsOutput

/-- `aws.ToString`: the pointed-to string, or the empty string for `nil`. -/
def ToString : Option String → String
  | some s => s
  | none => ""

/-- A sweep candidate, `sweep.NewSweepResource(r, d, client)`: the resource is
always `resourceMonitor()` and the client the regional one, so a candidate is
determined by the ID set on its resource data. -/
structure SweepResource where
  Id : String
deriving DecidableEq, Repr

/-- Whether a page carries a non-empty continuation token, that is, whether the
listing goes on after it. -/
def ListMonitorsOutput.hasNext (out : ListMonitorsOutput) : Bool :=
  match out.NextToken with
  | some t => t != ""
  | none => false

/-- The state of the SDK paginator for `ListMonitors`. -/
structure ListMonitorsPaginator where
  firstPage : Bool
  nextToken : Option String
deriving DecidableEq, Repr

namespace ListMonitorsPaginator

/-- `NewListMonitorsPaginator`: no page fetched yet. The paginator is built with
its default options, under which a repeated token does not end the listing. -/
def new : ListMonitorsPaginator := { firstPage := true, nextToken := none }

/-- `HasMorePages`: the first page is still to be fetched, or the last page
carried a non-empty continuation token. -/
def HasMorePages (p : ListMonitorsPaginator) : Bool :=
  p.firstPage ||
    (match p.nextToken with
     | some t => t != ""
     | none => false)

/-- `NextPage`, given what the service answers to the request: an error leaves
the paginator as it is, a page records its continuation token. -/
def NextPage (p : ListMonitorsPaginator) (resp : Response) : Response × ListMonitorsPaginator :=
  match resp with
  | .error e => (.error e, p)
  | .ok out => (.ok out, { firstPage := false, nextToken := out.NextToken })

end ListMonitorsPaginator

/-- Modelled from the spec: `sweep.SkipSweepError` (package `internal/sweep`,
outside the sources of this development): true exactly for the errors of the
skip class (such as a region that is not opted in); `skipClass` decides that
class, and a `nil` error is no error, hence not in it. -/
def SkipSweepError (skipClass : Error → Bool) : Option Error → Bool
  | none => false
  | some e => skipClass e

/-- The collaborators of a sweep. `SharedRegionalSweepClient` yields the client
of a region or fails; a client is represented by the responses its
`ListMonitors` gives to the successive requests. `SweepOrchestratorWithContext`
is the delete orchestrator, returning its aggregate error. -/
structure Env where
  SharedRegionalSweepClient : String → Except Error (List Response)
  skipClass : Error → Bool
  SweepOrchestratorWithContext : List SweepResource → Option Error

/-- What a run of `sweepMonitors` leaves behind: the returned error, the number
of page requests made, the argument of each orchestrator invocation in order,
and the log lines written. -/
structure Outcome where
  err : Option Error
  fetches : Nat
  orchestrated : List (List SweepResource)
  log : List String
deriving DecidableEq, Repr

/-- The candidates appended for one page: one per monitor, in order, with the
monitor name as ID. -/
def pageResources (page : ListMonitorsOutput) : List SweepResource :=
  page.Monitors.map (fun v => { Id := ToString v.MonitorName })

/-- The `err` of a `(page, err)` result pair: `none` for `nil`. -/
def Response.err : Response → Option Error
  | .error e => some e
  | .ok _ => none

/-- The `%s` verb applied to an error value. -/
def fmtErr : Option Error → String
  | some e => e.Error
  | none => "%!s(<nil>)"

/-- The end of `sweepMonitors`, after the pagination loop: hand the collected
candidates to the orchestrator and wrap its error, if any. -/
def sweepCollected (env : Env) (region : String) (sweepResources : List SweepResource)
    (fetches : Nat) : Outcome :=
  let err := env.SweepOrchestratorWithContext sweepResources
  { err := err.map (Errorf_s_w "error sweeping Internet Monitor Monitors" region),
    fetches := fetches, orchestrated := [sweepResources], log := [] }

/-- The body of `sweepMonitors` from the pagination loop on. `responses` are the
answers of the service still to come, `fetches` counts the requests made so
far. The result is `none` when the loop asks for an answer that `responses`
does not provide. -/
def sweepPages (env : Env) (region : String) :
    List Response → ListMonitorsPaginator → List SweepResource → Nat → Option Outcome
  | [], pages, sweepResources, fetches =>
    if pages.HasMorePages then none
    else some (sweepCollected env region sweepResources fetches)
  | resp :: rest, pages, sweepResources, fetches =>
    if pages.HasMorePages then
      match pages.NextPage resp with
      | (result, pages) =>
        if SkipSweepError env.skipClass result.err then
          some { err := none, fetches := fetches + 1, orchestrated := [],
                 log := ["[WARN] Skipping Internet Monitor Monitor sweep for " ++ region ++ ": "
                          ++ fmtErr result.err] }
        else
          match result with
          | .error err =>
            some { err := some (Errorf_s_w "error listing Internet Monitor Monitors" region err),
                   fetches := fetches + 1, orchestrated := [], log := [] }
          | .ok page =>
            sweepPages env region rest pages (sweepResources ++ pageResources page) (fetches + 1)
    else some (sweepCollected env region sweepResources fetches)

/-- `sweepMonitors`: sweep the monitors of a region. -/
def sweepMonitors (env : Env) (region : String) : Option Outcome :=
  match env.SharedRegionalSweepClient region with
  | .error err =>
    some { err := some (Errorf_s "error getting client" err),
           fetches := 0, orchestrated := [], log := [] }
  | .ok responses => sweepPages env region responses ListMonitorsPaginator.new [] 0

end internetmonitor

/-! ## SSM Contacts destroy check (`internal/service/ssmcontacts/contact_channel_test.go`) -/

namespace ssmcontacts

/-- A resource of the Terraform state, as far as the check reads it: `rs.Type`
and `rs.Primary.ID`. -/
structure ResourceState where
  ResourceType : String
  ID : String
deriving DecidableEq, Repr

/-- Go `errors.As(err, &target)`: whether an error of the chain of `err` (the
error itself, then what `Unwrap` yields, and so on) has the dynamic type of the
target; `hasType` tests an error value for that type. -/
def errorsAs (hasType : Error → Bool) : Error → Bool
  | .errorString s => hasType (.errorString s)
  | .wrapError msg err => hasType (.wrapError msg err) || errorsAs hasType err

/-- The collaborators of the check. `GetContactChannel` is the lookup of the
SSM Contacts client by contact channel ID, giving the returned error (`none`
when the channel is found). `isValidationException` and
`isResourceNotFoundException` test an error value for the SDK types
`*types.ValidationException` and `*types.ResourceNotFoundException`.
`createError id cause` is `create.Error(names.SSMContacts,
create.ErrActionCheckingDestroyed, tfssmcontacts.ResNameContactChannel, id,
cause)`, the error that package `internal/create` builds around `cause`. -/
structure Env where
  GetContactChannel : String → Option Error
  isValidationException : Error → Bool
  isResourceNotFoundException : Error → Bool
  createError : String → Error → Error

/-- What a run of the check leaves behind: the returned error and the contact
channel IDs it looked up, in order. -/
structure Outcome where
  err : Option Error
  lookups : List String
deriving DecidableEq, Repr

/-- The resource type the check is about. -/
def channelType : String := "aws_ssmcontacts_contact_channel"

/-- `testAccCheckContactChannelDestroy`, on the resources of the root module in
the order the `range` loop visits them (name and resource state). -/
def testAccCheckContactChannelDestroy (env : Env) : List (String × ResourceState) → Outcome
  | [] => { err := none, lookups := [] }
  | (_, rs) :: rest =>
    if rs.ResourceType ≠ "aws_ssmcontacts_contact_channel" then
      testAccCheckContactChannelDestroy env rest
    else
      match env.GetContactChannel rs.ID with
      | some err =>
        if errorsAs env.isValidationException err then
          { err := (testAccCheckContactChannelDestroy env rest).err,
            lookups := rs.ID :: (testAccCheckContactChannelDestroy env rest).lookups }
        else if errorsAs env.isResourceNotFoundException err then
          { err := (testAccCheckContactChannelDestroy env rest).err,
            lookups := rs.ID :: (testAccCheckContactChannelDestroy env rest).lookups }
        else { err := some err, lookups := [rs.ID] }
      | none =>
        { err := some (env.createError rs.ID (Error.errorString "not destroyed")),
          lookups := [rs.ID] }

/-- Whether the lookup of a contact channel ID fails with a validation error or
a not-found error. -/
def lookupShowsAbsent (env : Env) (id : String) : Bool :=
  match env.GetContactChannel id with
  | some err =>
    errorsAs env.isValidationException err || errorsAs env.isResourceNotFoundException err
  | none => false

end ssmcontacts

end TerraformProviderAws

/-! ## Facts about tag sets -/

namespace TerraformProviderAws

namespace tftags

namespace KeyValueTags

theorem find?_key_of_mem {l : List (String × String)} (h : (l.map Prod.fst).Nodup)
    {k v : String} (hm : (k, v) ∈ l) :
    l.find? (fun kv => decide (kv.1 = k)) = some (k, v) := by
  induction l with
  | nil => simp at hm
  | cons a l ih =>
    simp only [List.map_cons, List.nodup_cons] at h
    rcases List.mem_cons.1 hm with e | hm'
    · subst e; simp
    · have hne : a.1 ≠ k := by
        intro e
        exact h.1 (e ▸ List.mem_map_of_mem Prod.fst hm')
      rw [List.find?_cons_of_neg _ (by simpa using hne)]
      exact ih h.2 hm'

theorem get?_eq_some_iff (t : KeyValueTags) (k v : String) :
    t.get? k = some v ↔ (k, v) ∈ t.entries := by
  constructor
  · intro h
    unfold get? at h
    rcases Option.map_eq_some'.1 h with ⟨kv, hf, hv⟩
    have h1 := List.find?_some hf
    have h2 := List.mem_of_find?_eq_some hf
    simp only [decide_eq_true_eq] at h1
    rw [← h1, ← hv]
    exact h2
  · intro h
    unfold get?
    rw [find?_key_of_mem t.nodupKeys h]
    rfl

theorem get?_eq_none_iff (t : KeyValueTags) (k : String) :
    t.get? k = none ↔ k ∉ t.Keys := by
  unfold get? Keys
  simp only [Option.map_eq_none', List.find?_eq_none, decide_eq_true_eq, List.mem_map, not_exists,
    not_and, Prod.forall]

theorem mem_Keys_iff (t : KeyValueTags) (k : String) :
    k ∈ t.Keys ↔ ∃ v, t.get? k = some v := by
  unfold Keys
  simp [get?_eq_some_iff]

theorem mem_Removed (old new : KeyValueTags) (k v : String) :
    (k, v) ∈ (old.Removed new).entries ↔ old.get? k = some v ∧ new.get? k ≠ some v := by
  simp [Removed, get?_eq_some_iff]

theorem mem_Updated (old new : KeyValueTags) (k v : String) :
    (k, v) ∈ (old.Updated new).entries ↔ new.get? k = some v ∧ old.get? k ≠ some v := by
  simp [Updated, get?_eq_some_iff]

theorem mem_IgnoreSystem (sys : String) (t : KeyValueTags) (k v : String) :
    (k, v) ∈ (t.IgnoreSystem sys).entries ↔ (k, v) ∈ t.entries ∧ hasPrefix sys k = false := by
  simp [IgnoreSystem]

theorem Removed_self (t : KeyValueTags) : (t.Removed t).entries = [] := by
  apply List.eq_nil_iff_forall_not_mem.2
  rintro ⟨k, v⟩ h
  exact ((mem_Removed t t k v).1 h).2 ((mem_Removed t t k v).1 h).1

theorem Updated_self (t : KeyValueTags) : (t.Updated t).entries = [] := by
  apply List.eq_nil_iff_forall_not_mem.2
  rintro ⟨k, v⟩ h
  exact ((mem_Updated t t k v).1 h).2 ((mem_Updated t t k v).1 h).1

theorem IgnoreSystem_entries_nil (sys : String) (t : KeyValueTags) (h : t.entries = []) :
    (t.IgnoreSystem sys).entries = [] := by
  simp [IgnoreSystem, h]

theorem IgnoreSystem_all_system (sys : String) (t : KeyValueTags)
    (h : ∀ k ∈ t.Keys, hasPrefix sys k = true) : (t.IgnoreSystem sys).entries = [] := by
  apply List.eq_nil_iff_forall_not_mem.2
  rintro ⟨k, v⟩ hm
  have h1 := (mem_IgnoreSystem sys t k v).1 hm
  have h2 := h k (List.mem_map_of_mem Prod.fst h1.1)
  rw [h1.2] at h2
  exact Bool.false_ne_true h2

theorem len_pos_iff (t : KeyValueTags) : 0 < t.len ↔ t.entries ≠ [] := by
  unfold len
  exact List.length_pos

end KeyValueTags

end tftags

/-! ## Tag reconciliation -/

namespace kafka

open tftags tftags.KeyValueTags

/-- When both system-filtered differences are empty, `updateTags` does nothing. -/
theorem updateTags_of_nil {σ : Type} (sys : String) (conn : KafkaAPI σ) (identifier : String)
    (oldTags newTags : KeyValueTags) (s : σ)
    (h1 : ((oldTags.Removed newTags).IgnoreSystem sys).entries = [])
    (h2 : ((oldTags.Updated newTags).IgnoreSystem sys).entries = []) :
    updateTags sys conn identifier oldTags newTags s = { err := none, issued := [], state := s } := by
  simp [updateTags, len, h1, h2]

/-- C1 (idempotence of tag reconciliation): after `updateTags` has run from `T1`
to `T2`, a second run with `T2` as both the old and the new tag set issues no
call at all (neither `UntagResource` nor `TagResource`), returns `nil`, and
leaves the service as the first run left it. -/
theorem updateTags_idempotent {σ : Type} (sys : String) (conn : KafkaAPI σ)
    (identifier : String) (T1 T2 : KeyValueTags) (s : σ) :
    (updateTags sys conn identifier T2 T2
        (updateTags sys conn identifier T1 T2 s).state).calls = [] ∧
    (updateTags sys conn identifier T2 T2
        (updateTags sys conn identifier T1 T2 s).state).err = none ∧
    (updateTags sys conn identifier T2 T2
        (updateTags sys conn identifier T1 T2 s).state).state
      = (updateTags sys conn identifier T1 T2 s).state := by
  rw [updateTags_of_nil sys conn identifier T2 T2 _
    (IgnoreSystem_entries_nil sys _ (Removed_self T2))
    (IgnoreSystem_entries_nil sys _ (Updated_self T2))]
  exact ⟨rfl, rfl, rfl⟩

/-- C2 (system tags are never touched): when every key of `T` is under the
system prefix, `updateTags` from the empty tag set to `T` issues no call and
returns `nil`. -/
theorem updateTags_system_tags_untouched {σ : Type} (sys : String) (conn : KafkaAPI σ)
    (identifier : String) (T : KeyValueTags) (s : σ)
    (hsys : ∀ k ∈ T.Keys, hasPrefix sys k = true) :
    (updateTags sys conn identifier KeyValueTags.empty T s).calls = [] ∧
    (updateTags sys conn identifier KeyValueTags.empty T s).err = none := by
  have h1 : ((KeyValueTags.empty.Removed T).IgnoreSystem sys).entries = [] := by
    simp [IgnoreSystem, Removed, KeyValueTags.empty]
  have h2 : ((KeyValueTags.empty.Updated T).IgnoreSystem sys).entries = [] := by
    apply IgnoreSystem_all_system
    intro k hk
    apply hsys
    unfold Keys Updated at hk
    unfold Keys
    exact (List.Sublist.map Prod.fst (List.filter_sublist _)).subset hk
  rw [updateTags_of_nil sys conn identifier _ T s h1 h2]
  exact ⟨rfl, rfl⟩

/-- Witness for C2: a tag set of two `aws:` keys, on a service where any call
would fail. -/
theorem updateTags_system_tags_untouched_witness :
    (∀ k ∈ (KeyValueTags.mk [("aws:cloudformation:stack-id", "s"), ("aws:x", "")]
              (by decide)).Keys, hasPrefix "aws:" k = true) ∧
    (updateTags "aws:" (constAPI (some (.errorString "denied")) (some (.errorString "denied")))
        "arn:aws:kafka:cluster/c" KeyValueTags.empty
        (KeyValueTags.mk [("aws:cloudformation:stack-id", "s"), ("aws:x", "")] (by decide))
        ()).calls = [] ∧
    (updateTags "aws:" (constAPI (some (.errorString "denied")) (some (.errorString "denied")))
        "arn:aws:kafka:cluster/c" KeyValueTags.empty
        (KeyValueTags.mk [("aws:cloudformation:stack-id", "s"), ("aws:x", "")] (by decide))
        ()).err = none :=
  ⟨by decide, updateTags_system_tags_untouched "aws:" _ _ _ () (by decide)⟩

end kafka

end TerraformProviderAws

namespace TerraformProviderAws

namespace kafka

open tftags tftags.KeyValueTags

/-- C4 (shape of the call sequence): `updateTags` issues at most two calls, at
most one `UntagResource` and at most one `TagResource`; the untag call is
issued iff the system-filtered removed set is non-empty; provided the untag
step did not fail, the tag call is issued iff the system-filtered updated set
is non-empty; when both are issued the calls are exactly the untag call
followed by the tag call; and every call carries the given identifier as its
`ResourceArn`. -/
theorem updateTags_call_shape {σ : Type} (sys : String) (conn : KafkaAPI σ)
    (identifier : String) (oldTags newTags : KeyValueTags) (s : σ) :
    (updateTags sys conn identifier oldTags newTags s).calls.length ≤ 2 ∧
    ((updateTags sys conn identifier oldTags newTags s).calls.filter Call.isUntag).length ≤ 1 ∧
    ((updateTags sys conn identifier oldTags newTags s).calls.filter Call.isTag).length ≤ 1 ∧
    ((∃ c ∈ (updateTags sys conn identifier oldTags newTags s).calls, c.isUntag = true) ↔
      0 < ((oldTags.Removed newTags).IgnoreSystem sys).len) ∧
    ((∀ i ∈ (updateTags sys conn identifier oldTags newTags s).issued,
        i.call.isUntag = true → i.err = none) →
      ((∃ c ∈ (updateTags sys conn identifier oldTags newTags s).calls, c.isTag = true) ↔
        0 < ((oldTags.Updated newTags).IgnoreSystem sys).len)) ∧
    ((∃ c ∈ (updateTags sys conn identifier oldTags newTags s).calls, c.isUntag = true) →
      (∃ c ∈ (updateTags sys conn identifier oldTags newTags s).calls, c.isTag = true) →
      ∃ u t, (updateTags sys conn identifier oldTags newTags s).calls
        = [Call.UntagResource u, Call.TagResource t]) ∧
    (∀ c ∈ (updateTags sys conn identifier oldTags newTags s).calls,
      c.ResourceArn = identifier) := by
  unfold Outcome.calls updateTags
  by_cases hR : 0 < ((oldTags.Removed newTags).IgnoreSystem sys).len
  · cases hu : (conn.UntagResourceWithContext
        { ResourceArn := identifier,
          TagKeys := ((oldTags.Removed newTags).IgnoreSystem sys).Keys } s).1 with
    | some e => simp [hR, hu, Call.isUntag, Call.isTag, Call.ResourceArn]
    | none =>
      by_cases hU : 0 < ((oldTags.Updated newTags).IgnoreSystem sys).len
      · simp [hR, hu, hU, Call.isUntag, Call.isTag, Call.ResourceArn]
      · simp [hR, hu, hU, Call.isUntag, Call.isTag, Call.ResourceArn]
  · by_cases hU : 0 < ((oldTags.Updated newTags).IgnoreSystem sys).len
    · simp [hR, hU, Call.isUntag, Call.isTag, Call.ResourceArn]
    · simp [hR, hU, Call.isUntag, Call.isTag, Call.ResourceArn]

/-- The returned error against the results recorded for the issued calls: it is
non-nil iff a recorded result is, it wraps the first recorded failure, and a
recorded untag failure excludes a tag call. -/
theorem updateTags_err_of_issued {σ : Type} (sys : String) (conn : KafkaAPI σ)
    (identifier : String) (oldTags newTags : KeyValueTags) (s : σ) :
    ((updateTags sys conn identifier oldTags newTags s).err ≠ none ↔
      ∃ i ∈ (updateTags sys conn identifier oldTags newTags s).issued, i.err ≠ none) ∧
    (∀ pre i post e,
      (updateTags sys conn identifier oldTags newTags s).issued = pre ++ i :: post →
      (∀ j ∈ pre, j.err = none) → i.err = some e →
      (updateTags sys conn identifier oldTags newTags s).err
        = some (Error.wrapError
            ((if i.call.isUntag then "untagging resource" else "tagging resource")
              ++ " (" ++ identifier ++ "): " ++ e.Error) e)) ∧
    (∀ i ∈ (updateTags sys conn identifier oldTags newTags s).issued,
      i.call.isUntag = true → i.err ≠ none →
      ∀ c ∈ (updateTags sys conn identifier oldTags newTags s).calls, c.isTag = false) := by
  unfold Outcome.calls updateTags
  by_cases hR : 0 < ((oldTags.Removed newTags).IgnoreSystem sys).len
  · cases hu : (conn.UntagResourceWithContext
        { ResourceArn := identifier,
          TagKeys := ((oldTags.Removed newTags).IgnoreSystem sys).Keys } s).1 with
    | some e =>
      simp only [hR, hu, if_true, Option.map_some']
      refine ⟨by simp, ?_, by simp [Call.isTag]⟩
      intro pre i post e' hsplit hpre hi
      rcases pre with _ | ⟨j, pre⟩
      · simp only [List.nil_append, List.cons.injEq] at hsplit
        rw [← hsplit.1] at hi
        simp only [Option.some.injEq] at hi
        rw [← hsplit.1, ← hi]
        simp [Call.isUntag, Errorf_s_w]
      · simp at hsplit
    | none =>
      by_cases hU : 0 < ((oldTags.Updated newTags).IgnoreSystem sys).len
      · simp only [hR, hu, hU, if_true, Option.map_none']
        refine ⟨?_, ?_, by simp [Call.isUntag]⟩
        · cases ht : (conn.TagResourceWithContext
            { ResourceArn := identifier,
              Tags := Tags ((oldTags.Updated newTags).IgnoreSystem sys) }
            (conn.UntagResourceWithContext
              { ResourceArn := identifier,
                TagKeys := ((oldTags.Removed newTags).IgnoreSystem sys).Keys } s).2).1 <;> simp [ht]
        · intro pre i post e' hsplit hpre hi
          rcases pre with _ | ⟨j, pre⟩
          · simp only [List.nil_append, List.singleton_append, List.cons.injEq] at hsplit
            rw [← hsplit.1] at hi
            simp at hi
          · rcases pre with _ | ⟨j', pre⟩
            · simp only [List.singleton_append, List.cons.injEq, and_true] at hsplit
              rw [← hsplit.2.1] at hi
              simp only at hi
              rw [← hsplit.2.1, hi]
              simp [Call.isUntag, Errorf_s_w]
            · simp at hsplit
      · simp only [hR, hu, hU, if_true, if_false, Option.map_none']
        refine ⟨by simp, ?_, by simp⟩
        intro pre i post e' hsplit hpre hi
        rcases pre with _ | ⟨j, pre⟩
        · simp only [List.nil_append, List.cons.injEq] at hsplit
          rw [← hsplit.1] at hi
          simp at hi
        · simp at hsplit
  · by_cases hU : 0 < ((oldTags.Updated newTags).IgnoreSystem sys).len
    · simp only [hR, hU, if_true, if_false]
      refine ⟨?_, ?_, by simp [Call.isUntag]⟩
      · cases ht : (conn.TagResourceWithContext
            { ResourceArn := identifier,
              Tags := Tags ((oldTags.Updated newTags).IgnoreSystem sys) } s).1 <;> simp [ht]
      · intro pre i post e' hsplit hpre hi
        rcases pre with _ | ⟨j, pre⟩
        · simp only [List.nil_append, List.cons.injEq] at hsplit
          rw [← hsplit.1] at hi
          simp only at hi
          rw [← hsplit.1, hi]
          simp [Call.isUntag, Errorf_s_w]
        · simp at hsplit
    · simp [hR, hU]

/-- The calls of `updateTags` and its returned error, in terms of what the
connection answers: each issued call is recorded with the answer of the
connection to it, and the returned error is the wrapped answer of the first
call the connection fails. -/
theorem updateTags_err_of_conn {σ : Type} (sys : String) (conn : KafkaAPI σ)
    (identifier : String) (oldTags newTags : KeyValueTags) (s : σ) :
    ((updateTags sys conn identifier oldTags newTags s).issued =
      (if 0 < ((oldTags.Removed newTags).IgnoreSystem sys).len then
        [{ call := Call.UntagResource
             { ResourceArn := identifier,
               TagKeys := ((oldTags.Removed newTags).IgnoreSystem sys).Keys },
           err := (conn.UntagResourceWithContext
             { ResourceArn := identifier,
               TagKeys := ((oldTags.Removed newTags).IgnoreSystem sys).Keys } s).1 }]
       else []) ++
      (if (0 < ((oldTags.Removed newTags).IgnoreSystem sys).len →
            (conn.UntagResourceWithContext
              { ResourceArn := identifier,
                TagKeys := ((oldTags.Removed newTags).IgnoreSystem sys).Keys } s).1 = none) ∧
          0 < ((oldTags.Updated newTags).IgnoreSystem sys).len then
        [{ call := Call.TagResource
             { ResourceArn := identifier,
               Tags := Tags ((oldTags.Updated newTags).IgnoreSystem sys) },
           err := (conn.TagResourceWithContext
             { ResourceArn := identifier,
               Tags := Tags ((oldTags.Updated newTags).IgnoreSystem sys) }
             (if 0 < ((oldTags.Removed newTags).IgnoreSystem sys).len then
               (conn.UntagResourceWithContext
                 { ResourceArn := identifier,
                   TagKeys := ((oldTags.Removed newTags).IgnoreSystem sys).Keys } s).2
              else s)).1 }]
       else [])) ∧
    (0 < ((oldTags.Removed newTags).IgnoreSystem sys).len →
      ∀ e, (conn.UntagResourceWithContext
          { ResourceArn := identifier,
            TagKeys := ((oldTags.Removed newTags).IgnoreSystem sys).Keys } s).1 = some e →
        (updateTags sys conn identifier oldTags newTags s).err
          = some (Error.wrapError ("untagging resource (" ++ identifier ++ "): " ++ e.Error) e) ∧
        (updateTags sys conn identifier oldTags newTags s).calls
          = [Call.UntagResource
              { ResourceArn := identifier,
                TagKeys := ((oldTags.Removed newTags).IgnoreSystem sys).Keys }]) ∧
    ((0 < ((oldTags.Removed newTags).IgnoreSystem sys).len →
        (conn.UntagResourceWithContext
          { ResourceArn := identifier,
            TagKeys := ((oldTags.Removed newTags).IgnoreSystem sys).Keys } s).1 = none) →
      0 < ((oldTags.Updated newTags).IgnoreSystem sys).len →
      ∀ e, (conn.TagResourceWithContext
          { ResourceArn := identifier,
            Tags := Tags ((oldTags.Updated newTags).IgnoreSystem sys) }
          (if 0 < ((oldTags.Removed newTags).IgnoreSystem sys).len then
            (conn.UntagResourceWithContext
              { ResourceArn := identifier,
                TagKeys := ((oldTags.Removed newTags).IgnoreSystem sys).Keys } s).2
           else s)).1 = some e →
        (updateTags sys conn identifier oldTags newTags s).err
          = some (Error.wrapError ("tagging resource (" ++ identifier ++ "): " ++ e.Error) e)) ∧
    ((updateTags sys conn identifier oldTags newTags s).err = none ↔
      (0 < ((oldTags.Removed newTags).IgnoreSystem sys).len →
        (conn.UntagResourceWithContext
          { ResourceArn := identifier,
            TagKeys := ((oldTags.Removed newTags).IgnoreSystem sys).Keys } s).1 = none) ∧
      (0 < ((oldTags.Updated newTags).IgnoreSystem sys).len →
        (conn.TagResourceWithContext
          { ResourceArn := identifier,
            Tags := Tags ((oldTags.Updated newTags).IgnoreSystem sys) }
          (if 0 < ((oldTags.Removed newTags).IgnoreSystem sys).len then
            (conn.UntagResourceWithContext
              { ResourceArn := identifier,
                TagKeys := ((oldTags.Removed newTags).IgnoreSystem sys).Keys } s).2
           else s)).1 = none)) := by
  unfold Outcome.calls updateTags
  by_cases hR : 0 < ((oldTags.Removed newTags).IgnoreSystem sys).len
  · cases hu : (conn.UntagResourceWithContext
        { ResourceArn := identifier,
          TagKeys := ((oldTags.Removed newTags).IgnoreSystem sys).Keys } s).1 with
    | some e => simp [hR, hu, Errorf_s_w]
    | none =>
      by_cases hU : 0 < ((oldTags.Updated newTags).IgnoreSystem sys).len
      · cases ht : (conn.TagResourceWithContext
            { ResourceArn := identifier,
              Tags := Tags ((oldTags.Updated newTags).IgnoreSystem sys) }
            (conn.UntagResourceWithContext
              { ResourceArn := identifier,
                TagKeys := ((oldTags.Removed newTags).IgnoreSystem sys).Keys } s).2).1 <;>
          simp [hR, hu, hU, ht, Errorf_s_w]
      · simp [hR, hu, hU]
  · by_cases hU : 0 < ((oldTags.Updated newTags).IgnoreSystem sys).len
    · cases ht : (conn.TagResourceWithContext
          { ResourceArn := identifier,
            Tags := Tags ((oldTags.Updated newTags).IgnoreSystem sys) } s).1 <;>
        simp [hR, hU, ht, Errorf_s_w]
    · simp [hR, hU]

/-- C7 (error propagation): every call `updateTags` issues is recorded with the
answer the connection gives to it. When the connection fails the untag call,
`updateTags` returns that error wrapped with the message
`untagging resource (<identifier>): ` followed by the cause, and the untag call
is the only call issued, so no `TagResource` call is made. When the untag step
did not fail and the connection fails the tag call, `updateTags` returns that
error wrapped with `tagging resource (<identifier>): ` followed by the cause.
It returns `nil` iff the connection fails none of the calls due. In terms of
the recorded results: the returned error is non-nil iff one of the issued calls
failed, and it wraps the error of the first failing call. -/
theorem updateTags_error_propagation {σ : Type} (sys : String) (conn : KafkaAPI σ)
    (identifier : String) (oldTags newTags : KeyValueTags) (s : σ) :
    (((updateTags sys conn identifier oldTags newTags s).issued =
      (if 0 < ((oldTags.Removed newTags).IgnoreSystem sys).len then
        [{ call := Call.UntagResource
             { ResourceArn := identifier,
               TagKeys := ((oldTags.Removed newTags).IgnoreSystem sys).Keys },
           err := (conn.UntagResourceWithContext
             { ResourceArn := identifier,
               TagKeys := ((oldTags.Removed newTags).IgnoreSystem sys).Keys } s).1 }]
       else []) ++
      (if (0 < ((oldTags.Removed newTags).IgnoreSystem sys).len →
            (conn.UntagResourceWithContext
              { ResourceArn := identifier,
                TagKeys := ((oldTags.Removed newTags).IgnoreSystem sys).Keys } s).1 = none) ∧
          0 < ((oldTags.Updated newTags).IgnoreSystem sys).len then
        [{ call := Call.TagResource
             { ResourceArn := identifier,
               Tags := Tags ((oldTags.Updated newTags).IgnoreSystem sys) },
           err := (conn.TagResourceWithContext
             { ResourceArn := identifier,
               Tags := Tags ((oldTags.Updated newTags).IgnoreSystem sys) }
             (if 0 < ((oldTags.Removed newTags).IgnoreSystem sys).len then
               (conn.UntagResourceWithContext
                 { ResourceArn := identifier,
                   TagKeys := ((oldTags.Removed newTags).IgnoreSystem sys).Keys } s).2
              else s)).1 }]
       else [])) ∧
    (0 < ((oldTags.Removed newTags).IgnoreSystem sys).len →
      ∀ e, (conn.UntagResourceWithContext
          { ResourceArn := identifier,
            TagKeys := ((oldTags.Removed newTags).IgnoreSystem sys).Keys } s).1 = some e →
        (updateTags sys conn identifier oldTags newTags s).err
          = some (Error.wrapError ("untagging resource (" ++ identifier ++ "): " ++ e.Error) e) ∧
        (updateTags sys conn identifier oldTags newTags s).calls
          = [Call.UntagResource
              { ResourceArn := identifier,
                TagKeys := ((oldTags.Removed newTags).IgnoreSystem sys).Keys }]) ∧
    ((0 < ((oldTags.Removed newTags).IgnoreSystem sys).len →
        (conn.UntagResourceWithContext
          { ResourceArn := identifier,
            TagKeys := ((oldTags.Removed newTags).IgnoreSystem sys).Keys } s).1 = none) →
      0 < ((oldTags.Updated newTags).IgnoreSystem sys).len →
      ∀ e, (conn.TagResourceWithContext
          { ResourceArn := identifier,
            Tags := Tags ((oldTags.Updated newTags).IgnoreSystem sys) }
          (if 0 < ((oldTags.Removed newTags).IgnoreSystem sys).len then
            (conn.UntagResourceWithContext
              { ResourceArn := identifier,
                TagKeys := ((oldTags.Removed newTags).IgnoreSystem sys).Keys } s).2
           else s)).1 = some e →
        (updateTags sys conn identifier oldTags newTags s).err
          = some (Error.wrapError ("tagging resource (" ++ identifier ++ "): " ++ e.Error) e)) ∧
    ((updateTags sys conn identifier oldTags newTags s).err = none ↔
      (0 < ((oldTags.Removed newTags).IgnoreSystem sys).len →
        (conn.UntagResourceWithContext
          { ResourceArn := identifier,
            TagKeys := ((oldTags.Removed newTags).IgnoreSystem sys).Keys } s).1 = none) ∧
      (0 < ((oldTags.Updated newTags).IgnoreSystem sys).len →
        (conn.TagResourceWithContext
          { ResourceArn := identifier,
            Tags := Tags ((oldTags.Updated newTags).IgnoreSystem sys) }
          (if 0 < ((oldTags.Removed newTags).IgnoreSystem sys).len then
            (conn.UntagResourceWithContext
              { ResourceArn := identifier,
                TagKeys := ((oldTags.Removed newTags).IgnoreSystem sys).Keys } s).2
           else s)).1 = none))) ∧
    (((updateTags sys conn identifier oldTags newTags s).err ≠ none ↔
      ∃ i ∈ (updateTags sys conn identifier oldTags newTags s).issued, i.err ≠ none) ∧
    (∀ pre i post e,
      (updateTags sys conn identifier oldTags newTags s).issued = pre ++ i :: post →
      (∀ j ∈ pre, j.err = none) → i.err = some e →
      (updateTags sys conn identifier oldTags newTags s).err
        = some (Error.wrapError
            ((if i.call.isUntag then "untagging resource" else "tagging resource")
              ++ " (" ++ identifier ++ "): " ++ e.Error) e)) ∧
    (∀ i ∈ (updateTags sys conn identifier oldTags newTags s).issued,
      i.call.isUntag = true → i.err ≠ none →
      ∀ c ∈ (updateTags sys conn identifier oldTags newTags s).calls, c.isTag = false)) :=
  ⟨updateTags_err_of_conn sys conn identifier oldTags newTags s,
    updateTags_err_of_issued sys conn identifier oldTags newTags s⟩

/-- Witness for C7: a connection that denies the untag call, then one that lets
it pass and throttles the tag call; `owner` changes, `tmp` goes, `team` comes. -/
theorem updateTags_error_propagation_witness :
    ((updateTags "aws:" (constAPI (some (Error.errorString "AccessDenied")) none)
        "arn:aws:kafka:cluster/c"
        (KeyValueTags.mk [("env", "prod"), ("owner", "ann"), ("tmp", "1")] (by decide))
        (KeyValueTags.mk [("owner", "bob"), ("env", "prod"), ("team", "x")] (by decide))
        ()).err
      = some (Error.wrapError "untagging resource (arn:aws:kafka:cluster/c): AccessDenied"
          (Error.errorString "AccessDenied")) ∧
     (updateTags "aws:" (constAPI (some (Error.errorString "AccessDenied")) none)
        "arn:aws:kafka:cluster/c"
        (KeyValueTags.mk [("env", "prod"), ("owner", "ann"), ("tmp", "1")] (by decide))
        (KeyValueTags.mk [("owner", "bob"), ("env", "prod"), ("team", "x")] (by decide))
        ()).calls
      = [Call.UntagResource
          { ResourceArn := "arn:aws:kafka:cluster/c", TagKeys := ["owner", "tmp"] }]) ∧
    (updateTags "aws:" (constAPI none (some (Error.errorString "Throttled")))
        "arn:aws:kafka:cluster/c"
        (KeyValueTags.mk [("env", "prod"), ("owner", "ann"), ("tmp", "1")] (by decide))
        (KeyValueTags.mk [("owner", "bob"), ("env", "prod"), ("team", "x")] (by decide))
        ()).err
      = some (Error.wrapError "tagging resource (arn:aws:kafka:cluster/c): Throttled"
          (Error.errorString "Throttled")) :=
  ⟨(updateTags_error_propagation "aws:" (constAPI (some (Error.errorString "AccessDenied")) none)
      "arn:aws:kafka:cluster/c"
      (KeyValueTags.mk [("env", "prod"), ("owner", "ann"), ("tmp", "1")] (by decide))
      (KeyValueTags.mk [("owner", "bob"), ("env", "prod"), ("team", "x")] (by decide))
      ()).1.2.1 (by decide) (Error.errorString "AccessDenied") rfl,
   (updateTags_error_propagation "aws:" (constAPI none (some (Error.errorString "Throttled")))
      "arn:aws:kafka:cluster/c"
      (KeyValueTags.mk [("env", "prod"), ("owner", "ann"), ("tmp", "1")] (by decide))
      (KeyValueTags.mk [("owner", "bob"), ("env", "prod"), ("team", "x")] (by decide))
      ()).1.2.2.1 (fun _ => rfl) (by decide) (Error.errorString "Throttled") rfl⟩

end kafka

end TerraformProviderAws

namespace TerraformProviderAws

namespace kafka

open tftags tftags.KeyValueTags

/-- An untag call is among the calls of `updateTags` exactly when the
system-filtered removed set is non-empty, and it then carries the identifier
and the keys of that set. -/
theorem untag_mem_calls_iff {σ : Type} (sys : String) (conn : KafkaAPI σ)
    (identifier : String) (oldTags newTags : KeyValueTags) (s : σ) (input : UntagResourceInput) :
    Call.UntagResource input ∈ (updateTags sys conn identifier oldTags newTags s).calls ↔
      0 < ((oldTags.Removed newTags).IgnoreSystem sys).len ∧
      input = { ResourceArn := identifier,
                TagKeys := ((oldTags.Removed newTags).IgnoreSystem sys).Keys } := by
  unfold Outcome.calls updateTags
  by_cases hR : 0 < ((oldTags.Removed newTags).IgnoreSystem sys).len
  · cases hu : (conn.UntagResourceWithContext
        { ResourceArn := identifier,
          TagKeys := ((oldTags.Removed newTags).IgnoreSystem sys).Keys } s).1 with
    | some e => simp [hR, hu]
    | none =>
      by_cases hU : 0 < ((oldTags.Updated newTags).IgnoreSystem sys).len
      · simp [hR, hu, hU]
      · simp [hR, hu, hU]
  · by_cases hU : 0 < ((oldTags.Updated newTags).IgnoreSystem sys).len
    · simp [hR, hU]
    · simp [hR, hU]

/-- A tag call among the calls of `updateTags` carries the identifier and the
pairs of the system-filtered updated set. -/
theorem tag_mem_calls {σ : Type} (sys : String) (conn : KafkaAPI σ)
    (identifier : String) (oldTags newTags : KeyValueTags) (s : σ) (input : TagResourceInput)
    (h : Call.TagResource input ∈ (updateTags sys conn identifier oldTags newTags s).calls) :
    input = { ResourceArn := identifier,
              Tags := Tags ((oldTags.Updated newTags).IgnoreSystem sys) } := by
  revert h
  unfold Outcome.calls updateTags
  by_cases hR : 0 < ((oldTags.Removed newTags).IgnoreSystem sys).len
  · cases hu : (conn.UntagResourceWithContext
        { ResourceArn := identifier,
          TagKeys := ((oldTags.Removed newTags).IgnoreSystem sys).Keys } s).1 with
    | some e => simp [hR, hu]
    | none =>
      by_cases hU : 0 < ((oldTags.Updated newTags).IgnoreSystem sys).len
      · simp [hR, hu, hU]
      · simp [hR, hu, hU]
  · by_cases hU : 0 < ((oldTags.Updated newTags).IgnoreSystem sys).len
    · simp [hR, hU]
    · simp [hR, hU]

/-- The keys of the system-filtered removed set. -/
theorem mem_removed_keys (sys : String) (oldTags newTags : KeyValueTags) (k : String) :
    k ∈ ((oldTags.Removed newTags).IgnoreSystem sys).Keys ↔
      hasPrefix sys k = false ∧ ∃ v, oldTags.get? k = some v ∧ newTags.get? k ≠ some v := by
  unfold Keys
  rw [List.mem_map]
  constructor
  · rintro ⟨⟨a, v⟩, hm, rfl⟩
    have h1 := (mem_IgnoreSystem sys _ a v).1 hm
    exact ⟨h1.2, v, (mem_Removed oldTags newTags a v).1 h1.1⟩
  · rintro ⟨hp, v, h⟩
    exact ⟨(k, v), (mem_IgnoreSystem sys _ k v).2 ⟨(mem_Removed oldTags newTags k v).2 h, hp⟩, rfl⟩

/-- The keys of the system-filtered updated set. -/
theorem mem_updated_keys (sys : String) (oldTags newTags : KeyValueTags) (k : String) :
    k ∈ ((oldTags.Updated newTags).IgnoreSystem sys).Keys ↔
      hasPrefix sys k = false ∧ ∃ v, newTags.get? k = some v ∧ oldTags.get? k ≠ some v := by
  unfold Keys
  rw [List.mem_map]
  constructor
  · rintro ⟨⟨a, v⟩, hm, rfl⟩
    have h1 := (mem_IgnoreSystem sys _ a v).1 hm
    exact ⟨h1.2, v, (mem_Updated oldTags newTags a v).1 h1.1⟩
  · rintro ⟨hp, v, h⟩
    exact ⟨(k, v), (mem_IgnoreSystem sys _ k v).2 ⟨(mem_Updated oldTags newTags k v).2 h, hp⟩, rfl⟩

/-- C5 (content of the untag call): the keys sent in the `UntagResource` call
are exactly the non-system keys present in old that are absent from new or
carry a different value there; the call is issued iff that set is non-empty;
so a non-system key whose value changes from old to new is among the keys of
the untag call. -/
theorem updateTags_untag_content {σ : Type} (sys : String) (conn : KafkaAPI σ)
    (identifier : String) (oldTags newTags : KeyValueTags) (s : σ) :
    (∀ input, Call.UntagResource input ∈ (updateTags sys conn identifier oldTags newTags s).calls →
      ∀ k, k ∈ input.TagKeys ↔
        (hasPrefix sys k = false ∧ ∃ v, oldTags.get? k = some v ∧ newTags.get? k ≠ some v)) ∧
    ((∃ input, Call.UntagResource input ∈ (updateTags sys conn identifier oldTags newTags s).calls) ↔
      ∃ k v, hasPrefix sys k = false ∧ oldTags.get? k = some v ∧ newTags.get? k ≠ some v) ∧
    (∀ k v w, hasPrefix sys k = false → oldTags.get? k = some v → newTags.get? k = some w →
      v ≠ w →
      ∃ input, Call.UntagResource input ∈ (updateTags sys conn identifier oldTags newTags s).calls ∧
        k ∈ input.TagKeys) := by
  have hpos : 0 < ((oldTags.Removed newTags).IgnoreSystem sys).len ↔
      ∃ k v, hasPrefix sys k = false ∧ oldTags.get? k = some v ∧ newTags.get? k ≠ some v := by
    rw [len_pos_iff]
    constructor
    · intro hne
      rcases List.exists_mem_of_ne_nil _ hne with ⟨⟨k, v⟩, hm⟩
      have h1 := (mem_IgnoreSystem sys _ k v).1 hm
      exact ⟨k, v, h1.2, (mem_Removed oldTags newTags k v).1 h1.1⟩
    · rintro ⟨k, v, hp, h⟩
      exact List.ne_nil_of_mem
        ((mem_IgnoreSystem sys _ k v).2 ⟨(mem_Removed oldTags newTags k v).2 h, hp⟩)
  refine ⟨?_, ?_, ?_⟩
  · intro input hin k
    rw [((untag_mem_calls_iff sys conn identifier oldTags newTags s input).1 hin).2]
    exact mem_removed_keys sys oldTags newTags k
  · rw [← hpos]
    constructor
    · rintro ⟨input, hin⟩
      exact ((untag_mem_calls_iff sys conn identifier oldTags newTags s input).1 hin).1
    · intro h
      exact ⟨_, (untag_mem_calls_iff sys conn identifier oldTags newTags s _).2 ⟨h, rfl⟩⟩
  · intro k v w hp ho hn hvw
    have hne : newTags.get? k ≠ some v := by
      rw [hn]
      intro e
      exact hvw (Option.some.inj e).symm
    refine ⟨_, (untag_mem_calls_iff sys conn identifier oldTags newTags s _).2
      ⟨hpos.2 ⟨k, v, hp, ho, hne⟩, rfl⟩, ?_⟩
    exact (mem_removed_keys sys oldTags newTags k).2 ⟨hp, v, ho, hne⟩

/-- C6 (no-op tags never issue a call): a key present in both tag sets with the
same value is named by no call of `updateTags`, neither among the keys of the
untag call nor among the keys of the tag call. -/
theorem updateTags_unchanged_key_untouched {σ : Type} (sys : String) (conn : KafkaAPI σ)
    (identifier : String) (oldTags newTags : KeyValueTags) (s : σ) (k v : String)
    (hold : oldTags.get? k = some v) (hnew : newTags.get? k = some v) :
    ∀ c ∈ (updateTags sys conn identifier oldTags newTags s).calls, k ∉ c.keys := by
  intro c hc hk
  cases c with
  | UntagResource input =>
    rw [((untag_mem_calls_iff sys conn identifier oldTags newTags s input).1 hc).2] at hk
    rcases (mem_removed_keys sys oldTags newTags k).1 hk with ⟨_, w, ho, hn⟩
    rw [hold] at ho
    rw [← ho] at hn
    exact hn hnew
  | TagResource input =>
    rw [tag_mem_calls sys conn identifier oldTags newTags s input hc] at hk
    rcases (mem_updated_keys sys oldTags newTags k).1 hk with ⟨_, w, hn, ho⟩
    rw [hnew] at hn
    rw [← hn] at ho
    exact ho hold

/-- Witness for C6: key `env` keeps its value while `owner` changes, `tmp` goes
and `team` comes; both calls are issued and neither names `env`. -/
theorem updateTags_unchanged_key_untouched_witness :
    (KeyValueTags.mk [("env", "prod"), ("owner", "ann"), ("tmp", "1")] (by decide)).get? "env"
      = some "prod" ∧
    (KeyValueTags.mk [("owner", "bob"), ("env", "prod"), ("team", "x")] (by decide)).get? "env"
      = some "prod" ∧
    ∀ c ∈ (updateTags "aws:" (constAPI none none) "arn:aws:kafka:cluster/c"
        (KeyValueTags.mk [("env", "prod"), ("owner", "ann"), ("tmp", "1")] (by decide))
        (KeyValueTags.mk [("owner", "bob"), ("env", "prod"), ("team", "x")] (by decide))
        ()).calls, "env" ∉ c.keys :=
  ⟨by decide, by decide,
    updateTags_unchanged_key_untouched "aws:" (constAPI none none) "arn:aws:kafka:cluster/c"
      _ _ () "env" "prod" (by decide) (by decide)⟩

end kafka

end TerraformProviderAws

namespace TerraformProviderAws

namespace kafka

open tftags tftags.KeyValueTags

/-- On the always-succeeding store, `updateTags` returns `nil` and the store of
the resource ends as: the pairs of the updated set on top of the initial
store without the keys of the removed set. -/
theorem updateTags_storeAPI (sys identifier : String) (oldTags newTags : KeyValueTags)
    (st : TagStore) :
    (updateTags sys storeAPI identifier oldTags newTags st).err = none ∧
    ∀ k, (updateTags sys storeAPI identifier oldTags newTags st).state identifier k =
      match ((oldTags.Updated newTags).IgnoreSystem sys).get? k with
      | some v => some v
      | none =>
        if k ∈ ((oldTags.Removed newTags).IgnoreSystem sys).Keys then none
        else st identifier k := by
  have hU0 : ¬ 0 < ((oldTags.Updated newTags).IgnoreSystem sys).len →
      ∀ k, ((oldTags.Updated newTags).IgnoreSystem sys).get? k = none := by
    intro h k
    have : ((oldTags.Updated newTags).IgnoreSystem sys).entries = [] := by
      by_contra hne
      exact h ((len_pos_iff _).2 hne)
    simp [get?, this]
  have hR0 : ¬ 0 < ((oldTags.Removed newTags).IgnoreSystem sys).len →
      ∀ k, k ∉ ((oldTags.Removed newTags).IgnoreSystem sys).Keys := by
    intro h k
    have : ((oldTags.Removed newTags).IgnoreSystem sys).entries = [] := by
      by_contra hne
      exact h ((len_pos_iff _).2 hne)
    simp [Keys, this]
  have hget : ∀ k, (match (Tags ((oldTags.Updated newTags).IgnoreSystem sys)).find?
        (fun kv => decide (kv.1 = k)) with
      | some kv => some kv.2
      | none => (none : Option String)) = ((oldTags.Updated newTags).IgnoreSystem sys).get? k := by
    intro k
    unfold get? Tags KeyValueTags.Map
    cases ((oldTags.Updated newTags).IgnoreSystem sys).entries.find?
      (fun kv => decide (kv.1 = k)) <;> rfl
  unfold updateTags
  by_cases hR : 0 < ((oldTags.Removed newTags).IgnoreSystem sys).len
  · by_cases hU : 0 < ((oldTags.Updated newTags).IgnoreSystem sys).len
    · refine ⟨by simp [hR, hU, storeAPI], ?_⟩
      intro k
      simp only [hR, hU, storeAPI, if_true, Option.map_none', true_and]
      rw [← hget k]
      cases (Tags ((oldTags.Updated newTags).IgnoreSystem sys)).find?
        (fun kv => decide (kv.1 = k)) <;> rfl
    · refine ⟨by simp [hR, hU, storeAPI], ?_⟩
      intro k
      simp only [hR, hU, storeAPI, if_true, if_false, Option.map_none', true_and]
      rw [hU0 hU k]
  · by_cases hU : 0 < ((oldTags.Updated newTags).IgnoreSystem sys).len
    · refine ⟨by simp [hR, hU, storeAPI], ?_⟩
      intro k
      simp only [hR, hU, storeAPI, if_true, if_false]
      rw [← hget k, if_neg (hR0 hR k)]
      cases (Tags ((oldTags.Updated newTags).IgnoreSystem sys)).find?
        (fun kv => decide (kv.1 = k)) <;> rfl
    · refine ⟨by simp [hR, hU, storeAPI], ?_⟩
      intro k
      simp only [hR, hU, if_false]
      rw [hU0 hU k, if_neg (hR0 hR k)]

/-- The value the system-filtered updated set holds under a non-system key. -/
theorem get?_updated (sys : String) (oldTags newTags : KeyValueTags) (k : String)
    (hk : hasPrefix sys k = false) :
    ((oldTags.Updated newTags).IgnoreSystem sys).get? k =
      if oldTags.get? k = newTags.get? k then none else newTags.get? k := by
  cases hn : newTags.get? k with
  | none =>
    have : ((oldTags.Updated newTags).IgnoreSystem sys).get? k = none := by
      rw [get?_eq_none_iff, mem_updated_keys]
      rintro ⟨_, v, h, _⟩
      rw [hn] at h
      exact Option.noConfusion h
    rw [this]
    split <;> rfl
  | some v =>
    by_cases ho : oldTags.get? k = some v
    · rw [if_pos ho, get?_eq_none_iff, mem_updated_keys]
      rintro ⟨_, w, h, h2⟩
      rw [hn] at h
      rw [← h] at h2
      exact h2 ho
    · rw [if_neg ho, get?_eq_some_iff, mem_IgnoreSystem, mem_Updated]
      exact ⟨⟨hn, ho⟩, hk⟩

/-- C3 (reconciliation converges to the desired state): for tag sets without
system-prefixed keys, if the remote store of the resource initially equals the
old tag set and every call succeeds (untag deletes the listed keys, tag upserts
the listed pairs), then after `updateTags` the remote store of the resource
equals the new tag set; in particular a key whose value changed holds the new
value. -/
theorem updateTags_converges (sys identifier : String) (oldTags newTags : KeyValueTags)
    (st : TagStore)
    (hold : ∀ k ∈ oldTags.Keys, hasPrefix sys k = false)
    (hnew : ∀ k ∈ newTags.Keys, hasPrefix sys k = false)
    (hst : ∀ k, st identifier k = oldTags.get? k) :
    (updateTags sys storeAPI identifier oldTags newTags st).err = none ∧
    (∀ k, (updateTags sys storeAPI identifier oldTags newTags st).state identifier k
      = newTags.get? k) ∧
    (∀ k v w, oldTags.get? k = some v → newTags.get? k = some w → v ≠ w →
      (updateTags sys storeAPI identifier oldTags newTags st).state identifier k = some w) := by
  have hall : ∀ k, (updateTags sys storeAPI identifier oldTags newTags st).state identifier k
      = newTags.get? k := by
    intro k
    rw [(updateTags_storeAPI sys identifier oldTags newTags st).2 k, hst k]
    by_cases hk : hasPrefix sys k = false
    · rw [get?_updated sys oldTags newTags k hk]
      by_cases he : oldTags.get? k = newTags.get? k
      · rw [if_pos he]
        have hnot : k ∉ ((oldTags.Removed newTags).IgnoreSystem sys).Keys := by
          rw [mem_removed_keys]
          rintro ⟨_, v, h1, h2⟩
          rw [← he, h1] at h2
          exact h2 rfl
        simp only [if_neg hnot]
        exact he
      · rw [if_neg he]
        cases hn : newTags.get? k with
        | some w => rfl
        | none =>
          have hin : k ∈ ((oldTags.Removed newTags).IgnoreSystem sys).Keys := by
            rw [mem_removed_keys]
            cases ho : oldTags.get? k with
            | none => exact absurd (ho.trans hn.symm) he
            | some v => exact ⟨hk, v, rfl, by rw [hn]; exact Option.noConfusion⟩
          simp only [if_pos hin]
    · have hko : oldTags.get? k = none := by
        rw [get?_eq_none_iff]
        intro hm
        exact hk (hold k hm)
      have hkn : newTags.get? k = none := by
        rw [get?_eq_none_iff]
        intro hm
        exact hk (hnew k hm)
      have hU : ((oldTags.Updated newTags).IgnoreSystem sys).get? k = none := by
        rw [get?_eq_none_iff, mem_updated_keys]
        rintro ⟨h, _⟩
        exact hk h
      have hnot : k ∉ ((oldTags.Removed newTags).IgnoreSystem sys).Keys := by
        rw [mem_removed_keys]
        rintro ⟨h, _⟩
        exact hk h
      rw [hU, hko, hkn]
      simp only [if_neg hnot]
  refine ⟨(updateTags_storeAPI sys identifier oldTags newTags st).1, hall, ?_⟩
  intro k v w _ hn _
  rw [hall k, hn]

/-- Witness for C3: `env` stays, `owner` changes value, `tmp` goes, `team`
comes; the store of the cluster starts as the old tag set. -/
theorem updateTags_converges_witness :
    (∀ k ∈ (KeyValueTags.mk [("env", "prod"), ("owner", "ann"), ("tmp", "1")]
        (by decide)).Keys, hasPrefix "aws:" k = false) ∧
    (∀ k ∈ (KeyValueTags.mk [("owner", "bob"), ("env", "prod"), ("team", "x")]
        (by decide)).Keys, hasPrefix "aws:" k = false) ∧
    (∀ k, (fun (_ k : String) => (KeyValueTags.mk [("env", "prod"), ("owner", "ann"), ("tmp", "1")]
        (by decide)).get? k) "arn:aws:kafka:cluster/c" k
      = (KeyValueTags.mk [("env", "prod"), ("owner", "ann"), ("tmp", "1")] (by decide)).get? k) ∧
    (updateTags "aws:" storeAPI "arn:aws:kafka:cluster/c"
        (KeyValueTags.mk [("env", "prod"), ("owner", "ann"), ("tmp", "1")] (by decide))
        (KeyValueTags.mk [("owner", "bob"), ("env", "prod"), ("team", "x")] (by decide))
        (fun _ k => (KeyValueTags.mk [("env", "prod"), ("owner", "ann"), ("tmp", "1")]
          (by decide)).get? k)).err = none ∧
    (∀ k, (updateTags "aws:" storeAPI "arn:aws:kafka:cluster/c"
        (KeyValueTags.mk [("env", "prod"), ("owner", "ann"), ("tmp", "1")] (by decide))
        (KeyValueTags.mk [("owner", "bob"), ("env", "prod"), ("team", "x")] (by decide))
        (fun _ k => (KeyValueTags.mk [("env", "prod"), ("owner", "ann"), ("tmp", "1")]
          (by decide)).get? k)).state "arn:aws:kafka:cluster/c" k
      = (KeyValueTags.mk [("owner", "bob"), ("env", "prod"), ("team", "x")]
          (by decide)).get? k) :=
  have h := updateTags_converges "aws:" "arn:aws:kafka:cluster/c"
    (KeyValueTags.mk [("env", "prod"), ("owner", "ann"), ("tmp", "1")] (by decide))
    (KeyValueTags.mk [("owner", "bob"), ("env", "prod"), ("team", "x")] (by decide))
    (fun _ k => (KeyValueTags.mk [("env", "prod"), ("owner", "ann"), ("tmp", "1")]
      (by decide)).get? k)
    (by decide) (by decide) (fun _ => rfl)
  ⟨by decide, by decide, fun _ => rfl, h.1, h.2.1⟩

end kafka

end TerraformProviderAws

/-! ## Sweeping -/

namespace TerraformProviderAws

namespace internetmonitor

/-- After a page, the paginator has more pages exactly when the page carries a
non-empty continuation token. -/
theorem HasMorePages_after (p : ListMonitorsPaginator) (out : ListMonitorsOutput) :
    (p.NextPage (.ok out)).2.HasMorePages = out.hasNext := by
  simp [ListMonitorsPaginator.NextPage, ListMonitorsPaginator.HasMorePages,
    ListMonitorsOutput.hasNext]

/-- The loop walks through a run of pages that each announce a next page,
collecting their candidates, and carries on with the responses that follow. -/
theorem sweepPages_pages (env : Env) (region : String) (rest : List Response) :
    ∀ (pages : List ListMonitorsOutput) (p : ListMonitorsPaginator)
      (sweepResources : List SweepResource) (fetches : Nat),
      p.HasMorePages = true → (∀ out ∈ pages, out.hasNext = true) →
      ∃ q : ListMonitorsPaginator, q.HasMorePages = true ∧
        sweepPages env region (pages.map Except.ok ++ rest) p sweepResources fetches
          = sweepPages env region rest q (sweepResources ++ pages.flatMap pageResources)
              (fetches + pages.length) := by
  intro pages
  induction pages with
  | nil =>
    intro p acc n hp _
    exact ⟨p, hp, by simp⟩
  | cons out pages ih =>
    intro p acc n hp hall
    have hout : out.hasNext = true := hall out (List.mem_cons_self _ _)
    have hq : (p.NextPage (.ok out)).2.HasMorePages = true := by
      rw [HasMorePages_after, hout]
    rcases ih (p.NextPage (.ok out)).2 (acc ++ pageResources out) (n + 1) hq
      (fun o ho => hall o (List.mem_cons_of_mem _ ho)) with ⟨q, hq', heq⟩
    refine ⟨q, hq', ?_⟩
    simp only [List.map_cons, List.cons_append, sweepPages, hp, if_true]
    simp only [ListMonitorsPaginator.NextPage, Response.err, SkipSweepError] at heq ⊢
    simp only [Bool.false_eq_true, if_false, List.append_eq]
    rw [heq]
    simp only [List.flatMap_cons, List.append_assoc, List.length_cons]
    congr 1
    omega

/-- Once the paginator has no more pages, the loop ends and the collected
candidates go to the orchestrator, whatever the service would answer next. -/
theorem sweepPages_done (env : Env) (region : String) (rest : List Response)
    (p : ListMonitorsPaginator) (sweepResources : List SweepResource) (fetches : Nat)
    (hp : p.HasMorePages = false) :
    sweepPages env region rest p sweepResources fetches
      = some (sweepCollected env region sweepResources fetches) := by
  cases rest <;> simp [sweepPages, hp]

/-- C8 (skip-class listing errors make the sweep succeed): if the pages fetched
before the first failing fetch each announce a next page and that fetch fails
with a skip-class error, `sweepMonitors` returns `nil`, having logged the skip
and never invoked the delete orchestrator, so the candidates of the earlier
pages are not deleted. -/
theorem sweepMonitors_skip_listing_error (env : Env) (region : String)
    (pages : List ListMonitorsOutput) (e : Error) (rest : List Response)
    (hclient : env.SharedRegionalSweepClient region
      = .ok (pages.map Except.ok ++ Except.error e :: rest))
    (hpages : ∀ out ∈ pages, out.hasNext = true)
    (hskip : SkipSweepError env.skipClass (some e) = true) :
    sweepMonitors env region =
      some { err := none, fetches := pages.length + 1, orchestrated := [],
             log := ["[WARN] Skipping Internet Monitor Monitor sweep for " ++ region ++ ": "
                      ++ e.Error] } := by
  rcases sweepPages_pages env region (Except.error e :: rest) pages ListMonitorsPaginator.new [] 0
    rfl hpages with ⟨q, hq, heq⟩
  unfold sweepMonitors
  rw [hclient]
  simp only
  rw [heq]
  simp [sweepPages, hq, ListMonitorsPaginator.NextPage, Response.err, hskip, fmtErr]

/-- Witness for C8: one page of two monitors announcing a next page, then an
opt-in error that the environment classifies as skip-class. -/
theorem sweepMonitors_skip_listing_error_witness :
    sweepMonitors
      { SharedRegionalSweepClient := fun _ =>
          .ok ([({ Monitors := [⟨some "m1"⟩, ⟨some "m2"⟩], NextToken := some "t1" } :
                  ListMonitorsOutput)].map Except.ok
                ++ Except.error (Error.errorString "OptInRequired") :: []),
        skipClass := fun e => decide (e = Error.errorString "OptInRequired"),
        SweepOrchestratorWithContext := fun _ => some (Error.errorString "delete failed") }
      "ap-east-1" =
      some { err := none, fetches := 2, orchestrated := [],
             log := ["[WARN] Skipping Internet Monitor Monitor sweep for ap-east-1: OptInRequired"] } :=
  sweepMonitors_skip_listing_error _ "ap-east-1"
    [{ Monitors := [⟨some "m1"⟩, ⟨some "m2"⟩], NextToken := some "t1" }]
    (Error.errorString "OptInRequired") [] rfl (by decide) (by decide)

/-- C9 (listing errors fail fast): if the pages fetched before the first failing
fetch each announce a next page and that fetch fails with an error that is not
skip-class, `sweepMonitors` fetches no further page, never invokes the delete
orchestrator, and returns an error that wraps the listing error, with message
`error listing Internet Monitor Monitors (<region>): ` followed by the cause. -/
theorem sweepMonitors_listing_error (env : Env) (region : String)
    (pages : List ListMonitorsOutput) (e : Error) (rest : List Response)
    (hclient : env.SharedRegionalSweepClient region
      = .ok (pages.map Except.ok ++ Except.error e :: rest))
    (hpages : ∀ out ∈ pages, out.hasNext = true)
    (hskip : SkipSweepError env.skipClass (some e) = false) :
    sweepMonitors env region =
      some { err := some (Error.wrapError
                      ("error listing Internet Monitor Monitors (" ++ region ++ "): " ++ e.Error) e),
             fetches := pages.length + 1, orchestrated := [], log := [] } := by
  rcases sweepPages_pages env region (Except.error e :: rest) pages ListMonitorsPaginator.new [] 0
    rfl hpages with ⟨q, hq, heq⟩
  unfold sweepMonitors
  rw [hclient]
  simp only
  rw [heq]
  simp [sweepPages, hq, ListMonitorsPaginator.NextPage, Response.err, hskip, Errorf_s_w]

/-- Witness for C9: one page announcing a next page, then a throttling error,
with a further page the service would have answered. -/
theorem sweepMonitors_listing_error_witness :
    sweepMonitors
      { SharedRegionalSweepClient := fun _ =>
          .ok ([({ Monitors := [⟨some "m1"⟩], NextToken := some "t1" } :
                  ListMonitorsOutput)].map Except.ok
                ++ Except.error (Error.errorString "Throttling")
                  :: [Except.ok { Monitors := [⟨some "m2"⟩], NextToken := none }]),
        skipClass := fun e => decide (e = Error.errorString "OptInRequired"),
        SweepOrchestratorWithContext := fun _ => none }
      "us-west-2" =
      some { err := some (Error.wrapError
                      ("error listing Internet Monitor Monitors (" ++ "us-west-2" ++ "): "
                        ++ (Error.errorString "Throttling").Error)
                      (Error.errorString "Throttling")),
             fetches := 2, orchestrated := [], log := [] } :=
  sweepMonitors_listing_error _ "us-west-2"
    [{ Monitors := [⟨some "m1"⟩], NextToken := some "t1" }]
    (Error.errorString "Throttling")
    [Except.ok { Monitors := [⟨some "m2"⟩], NextToken := none }] rfl (by decide) (by decide)

/-- C10 (every listed resource is handed off for deletion): when every page
fetch succeeds, each page but the last announcing a next page and the last
announcing none, `sweepMonitors` invokes the delete orchestrator exactly once,
with one candidate per monitor over all pages, in page order and within-page
order, whose ID is the monitor name (the empty string for a nil name); it
returns `nil` iff the orchestrator does, and otherwise the orchestrator error
wrapped with the region. -/
theorem sweepMonitors_hands_off_all (env : Env) (region : String)
    (pages : List ListMonitorsOutput) (last : ListMonitorsOutput) (rest : List Response)
    (hclient : env.SharedRegionalSweepClient region
      = .ok (pages.map Except.ok ++ Except.ok last :: rest))
    (hpages : ∀ out ∈ pages, out.hasNext = true)
    (hlast : last.hasNext = false) :
    ∃ r, sweepMonitors env region = some r ∧
      r.orchestrated = [((pages ++ [last]).flatMap (fun out => out.Monitors)).map
          (fun v => { Id := v.MonitorName.getD "" })] ∧
      r.fetches = pages.length + 1 ∧
      (r.err = none ↔
        env.SweepOrchestratorWithContext
          (((pages ++ [last]).flatMap (fun out => out.Monitors)).map
            (fun v => { Id := v.MonitorName.getD "" })) = none) ∧
      (∀ e, env.SweepOrchestratorWithContext
          (((pages ++ [last]).flatMap (fun out => out.Monitors)).map
            (fun v => { Id := v.MonitorName.getD "" })) = some e →
        r.err = some (Error.wrapError
          ("error sweeping Internet Monitor Monitors (" ++ region ++ "): " ++ e.Error) e)) := by
  have hcands : ∀ l : List ListMonitorsOutput,
      l.flatMap pageResources
        = (l.flatMap (fun out => out.Monitors)).map
            (fun v => ({ Id := v.MonitorName.getD "" } : SweepResource)) := by
    intro l
    induction l with
    | nil => rfl
    | cons a l ih =>
      simp only [List.flatMap_cons, List.map_append, ih, pageResources]
      congr 1
      apply List.map_congr_left
      intro v _
      cases v.MonitorName <;> rfl
  rcases sweepPages_pages env region (Except.ok last :: rest) pages ListMonitorsPaginator.new [] 0
    rfl hpages with ⟨q, hq, heq⟩
  have hdone : (q.NextPage (.ok last)).2.HasMorePages = false := by
    rw [HasMorePages_after, hlast]
  have hrun : sweepMonitors env region
      = some (sweepCollected env region ((pages ++ [last]).flatMap pageResources)
          (pages.length + 1)) := by
    unfold sweepMonitors
    rw [hclient]
    simp only
    rw [heq]
    have hfst : (q.NextPage (Except.ok last)).1 = Except.ok last := rfl
    simp only [sweepPages, hq, if_true, Response.err, SkipSweepError, hfst, Bool.false_eq_true,
      if_false]
    rw [sweepPages_done env region rest _ _ _ hdone]
    simp
  refine ⟨_, hrun, ?_, rfl, ?_, ?_⟩
  · simp only [sweepCollected, hcands]
  · simp only [sweepCollected, hcands]
    cases env.SweepOrchestratorWithContext
      (((pages ++ [last]).flatMap (fun out => out.Monitors)).map
        (fun v => ({ Id := v.MonitorName.getD "" } : SweepResource))) <;> simp
  · intro e he
    simp only [sweepCollected, hcands, he]
    rfl

/-- Witness for C10: two pages, the second without continuation token and with
a monitor whose name is nil; the orchestrator reports a failed delete. -/
theorem sweepMonitors_hands_off_all_witness :
    ∃ r, sweepMonitors
      { SharedRegionalSweepClient := fun _ =>
          .ok ([({ Monitors := [⟨some "m1"⟩, ⟨some "m2"⟩], NextToken := some "t1" } :
                  ListMonitorsOutput)].map Except.ok
                ++ Except.ok { Monitors := [⟨none⟩, ⟨some "m3"⟩], NextToken := none } :: []),
        skipClass := fun e => decide (e = Error.errorString "OptInRequired"),
        SweepOrchestratorWithContext := fun _ => some (Error.errorString "delete failed") }
      "us-east-1" = some r ∧
      r.orchestrated = [[⟨"m1"⟩, ⟨"m2"⟩, ⟨""⟩, ⟨"m3"⟩]] ∧
      r.fetches = 2 ∧
      r.err = some (Error.wrapError
        "error sweeping Internet Monitor Monitors (us-east-1): delete failed"
        (Error.errorString "delete failed")) :=
  match sweepMonitors_hands_off_all
    { SharedRegionalSweepClient := fun _ =>
        .ok ([({ Monitors := [⟨some "m1"⟩, ⟨some "m2"⟩], NextToken := some "t1" } :
                ListMonitorsOutput)].map Except.ok
              ++ Except.ok { Monitors := [⟨none⟩, ⟨some "m3"⟩], NextToken := none } :: []),
      skipClass := fun e => decide (e = Error.errorString "OptInRequired"),
      SweepOrchestratorWithContext := fun _ => some (Error.errorString "delete failed") }
    "us-east-1"
    [{ Monitors := [⟨some "m1"⟩, ⟨some "m2"⟩], NextToken := some "t1" }]
    { Monitors := [⟨none⟩, ⟨some "m3"⟩], NextToken := none } [] rfl (by decide) (by decide) with
  | ⟨r, hr, ho, hf, _, he⟩ => ⟨r, hr, ho, hf, he _ rfl⟩

end internetmonitor

end TerraformProviderAws

/-! ## Destroy verification -/

namespace TerraformProviderAws

namespace ssmcontacts

/-- A resource of another type is passed over. -/
theorem destroy_cons_other (env : Env) (name : String) (rs : ResourceState)
    (rest : List (String × ResourceState)) (h : rs.ResourceType ≠ channelType) :
    testAccCheckContactChannelDestroy env ((name, rs) :: rest)
      = testAccCheckContactChannelDestroy env rest := by
  unfold channelType at h
  simp [testAccCheckContactChannelDestroy, h]

/-- A contact channel whose lookup shows it absent is looked up and the loop
goes on. -/
theorem destroy_cons_absent (env : Env) (name : String) (rs : ResourceState)
    (rest : List (String × ResourceState)) (h : rs.ResourceType = channelType)
    (ha : lookupShowsAbsent env rs.ID = true) :
    testAccCheckContactChannelDestroy env ((name, rs) :: rest)
      = { err := (testAccCheckContactChannelDestroy env rest).err,
          lookups := rs.ID :: (testAccCheckContactChannelDestroy env rest).lookups } := by
  unfold channelType at h
  unfold lookupShowsAbsent at ha
  cases hg : env.GetContactChannel rs.ID with
  | none => simp [hg] at ha
  | some e =>
    simp only [hg, Bool.or_eq_true] at ha
    by_cases hv : errorsAs env.isValidationException e = true
    · simp [testAccCheckContactChannelDestroy, h, hg, hv]
    · rcases ha with ha | ha
      · exact absurd ha hv
      · simp [testAccCheckContactChannelDestroy, h, hg, hv, ha]

/-- A contact channel whose lookup fails with another error ends the check with
that error. -/
theorem destroy_cons_error (env : Env) (name : String) (rs : ResourceState)
    (rest : List (String × ResourceState)) (h : rs.ResourceType = channelType) (e : Error)
    (hg : env.GetContactChannel rs.ID = some e)
    (hv : errorsAs env.isValidationException e = false)
    (hn : errorsAs env.isResourceNotFoundException e = false) :
    testAccCheckContactChannelDestroy env ((name, rs) :: rest)
      = { err := some e, lookups := [rs.ID] } := by
  unfold channelType at h
  simp [testAccCheckContactChannelDestroy, h, hg, hv, hn]

/-- A contact channel that is found ends the check with the not-destroyed error. -/
theorem destroy_cons_found (env : Env) (name : String) (rs : ResourceState)
    (rest : List (String × ResourceState)) (h : rs.ResourceType = channelType)
    (hg : env.GetContactChannel rs.ID = none) :
    testAccCheckContactChannelDestroy env ((name, rs) :: rest)
      = { err := some (env.createError rs.ID (Error.errorString "not destroyed")),
          lookups := [rs.ID] } := by
  unfold channelType at h
  simp [testAccCheckContactChannelDestroy, h, hg]

/-- A lookup that does not show the channel absent either fails with an error
that is neither a validation nor a not-found error, or succeeds. -/
theorem not_absent_cases (env : Env) (id : String) (h : lookupShowsAbsent env id = false) :
    (∃ e, env.GetContactChannel id = some e ∧ errorsAs env.isValidationException e = false ∧
      errorsAs env.isResourceNotFoundException e = false) ∨
    env.GetContactChannel id = none := by
  unfold lookupShowsAbsent at h
  cases hg : env.GetContactChannel id with
  | none => exact Or.inr rfl
  | some e =>
    simp only [hg, Bool.or_eq_false_iff] at h
    exact Or.inl ⟨e, rfl, h.1, h.2⟩

/-- The check skips a run of resources that are of another type or shown
absent, keeping the error of what follows. -/
theorem destroy_err_append (env : Env) (rest : List (String × ResourceState)) :
    ∀ pre : List (String × ResourceState),
      (∀ q ∈ pre, q.2.ResourceType = channelType → lookupShowsAbsent env q.2.ID = true) →
      (testAccCheckContactChannelDestroy env (pre ++ rest)).err
        = (testAccCheckContactChannelDestroy env rest).err := by
  intro pre
  induction pre with
  | nil => intro _; rfl
  | cons q pre ih =>
    intro h
    obtain ⟨name, rs⟩ := q
    have ih' := ih (fun q hq => h q (List.mem_cons_of_mem _ hq))
    by_cases ht : rs.ResourceType = channelType
    · rw [List.cons_append, destroy_cons_absent env name rs _ ht
        (h (name, rs) (List.mem_cons_self _ _) ht)]
      exact ih'
    · rw [List.cons_append, destroy_cons_other env name rs _ ht]
      exact ih'

/-- C11 (destroy verification): `testAccCheckContactChannelDestroy` looks only
at state resources of type `aws_ssmcontacts_contact_channel`: its outcome is
that on those resources alone and every ID it looks up belongs to one of them.
It returns `nil` iff for every such resource the `GetContactChannel` lookup
fails with a validation error or a not-found error. At the first such resource
for which that is not so, a lookup failing with any other error makes the check
return that error, and a lookup that succeeds makes it return the
`not destroyed` error. -/
theorem testAccCheckContactChannelDestroy_verifies (env : Env)
    (s : List (String × ResourceState)) :
    testAccCheckContactChannelDestroy env s
      = testAccCheckContactChannelDestroy env
          (s.filter (fun p => decide (p.2.ResourceType = "aws_ssmcontacts_contact_channel"))) ∧
    (∀ id ∈ (testAccCheckContactChannelDestroy env s).lookups,
      ∃ p ∈ s, p.2.ResourceType = "aws_ssmcontacts_contact_channel" ∧ p.2.ID = id) ∧
    ((testAccCheckContactChannelDestroy env s).err = none ↔
      ∀ p ∈ s, p.2.ResourceType = "aws_ssmcontacts_contact_channel" →
        ∃ e, env.GetContactChannel p.2.ID = some e ∧
          (errorsAs env.isValidationException e = true ∨
            errorsAs env.isResourceNotFoundException e = true)) ∧
    (∀ pre p post, s = pre ++ p :: post →
      (∀ q ∈ pre, q.2.ResourceType = "aws_ssmcontacts_contact_channel" →
        lookupShowsAbsent env q.2.ID = true) →
      p.2.ResourceType = "aws_ssmcontacts_contact_channel" →
      (∀ e, env.GetContactChannel p.2.ID = some e →
        errorsAs env.isValidationException e = false →
        errorsAs env.isResourceNotFoundException e = false →
        (testAccCheckContactChannelDestroy env s).err = some e) ∧
      (env.GetContactChannel p.2.ID = none →
        (testAccCheckContactChannelDestroy env s).err
          = some (env.createError p.2.ID (Error.errorString "not destroyed")))) := by
  have habs : ∀ id, lookupShowsAbsent env id = true ↔
      ∃ e, env.GetContactChannel id = some e ∧
        (errorsAs env.isValidationException e = true ∨
          errorsAs env.isResourceNotFoundException e = true) := by
    intro id
    unfold lookupShowsAbsent
    cases env.GetContactChannel id <;> simp
  refine ⟨?_, ?_, ?_, ?_⟩
  · induction s with
    | nil => rfl
    | cons q s ih =>
      obtain ⟨name, rs⟩ := q
      by_cases ht : rs.ResourceType = channelType
      · have ht' : rs.ResourceType = "aws_ssmcontacts_contact_channel" := ht
        rw [List.filter_cons_of_pos (by simpa using ht')]
        cases hb : lookupShowsAbsent env rs.ID with
        | true =>
          rw [destroy_cons_absent env name rs _ ht hb, destroy_cons_absent env name rs _ ht hb,
            ← ih]
        | false =>
          rcases not_absent_cases env rs.ID hb with ⟨e, hg, hv, hn⟩ | hg
          · rw [destroy_cons_error env name rs _ ht e hg hv hn,
              destroy_cons_error env name rs _ ht e hg hv hn]
          · rw [destroy_cons_found env name rs _ ht hg, destroy_cons_found env name rs _ ht hg]
      · have ht' : ¬ rs.ResourceType = "aws_ssmcontacts_contact_channel" := ht
        rw [List.filter_cons_of_neg (by simpa using ht'), destroy_cons_other env name rs _ ht]
        exact ih
  · induction s with
    | nil =>
      intro id hid
      simp [testAccCheckContactChannelDestroy] at hid
    | cons q s ih =>
      obtain ⟨name, rs⟩ := q
      intro id hid
      by_cases ht : rs.ResourceType = channelType
      · have hhead : ∃ p ∈ (name, rs) :: s,
            p.2.ResourceType = "aws_ssmcontacts_contact_channel" ∧ p.2.ID = rs.ID :=
          ⟨(name, rs), List.mem_cons_self _ _, ht, rfl⟩
        cases hb : lookupShowsAbsent env rs.ID with
        | true =>
          rw [destroy_cons_absent env name rs _ ht hb] at hid
          rcases List.mem_cons.1 hid with e | hid'
          · rw [e]; exact hhead
          · rcases ih id hid' with ⟨p, hp, h1, h2⟩
            exact ⟨p, List.mem_cons_of_mem _ hp, h1, h2⟩
        | false =>
          rcases not_absent_cases env rs.ID hb with ⟨e, hg, hv, hn⟩ | hg
          · rw [destroy_cons_error env name rs _ ht e hg hv hn] at hid
            rw [List.mem_singleton.1 hid]; exact hhead
          · rw [destroy_cons_found env name rs _ ht hg] at hid
            rw [List.mem_singleton.1 hid]; exact hhead
      · rw [destroy_cons_other env name rs _ ht] at hid
        rcases ih id hid with ⟨p, hp, h1, h2⟩
        exact ⟨p, List.mem_cons_of_mem _ hp, h1, h2⟩
  · induction s with
    | nil => simp [testAccCheckContactChannelDestroy]
    | cons q s ih =>
      obtain ⟨name, rs⟩ := q
      by_cases ht : rs.ResourceType = channelType
      · cases hb : lookupShowsAbsent env rs.ID with
        | true =>
          rw [destroy_cons_absent env name rs _ ht hb]
          simp only [ih, List.mem_cons, forall_eq_or_imp]
          constructor
          · intro h
            exact ⟨fun _ => (habs rs.ID).1 hb, h⟩
          · intro h
            exact h.2
        | false =>
          have hno : ¬ ∀ p ∈ (name, rs) :: s,
              p.2.ResourceType = "aws_ssmcontacts_contact_channel" →
                ∃ e, env.GetContactChannel p.2.ID = some e ∧
                  (errorsAs env.isValidationException e = true ∨
                    errorsAs env.isResourceNotFoundException e = true) := by
            intro h
            have h1 := (habs rs.ID).2 (h (name, rs) (List.mem_cons_self _ _) ht)
            rw [hb] at h1
            exact Bool.false_ne_true h1
          rcases not_absent_cases env rs.ID hb with ⟨e, hg, hv, hn⟩ | hg
          · rw [destroy_cons_error env name rs _ ht e hg hv hn]
            exact ⟨fun h => Option.noConfusion h, fun h => absurd h hno⟩
          · rw [destroy_cons_found env name rs _ ht hg]
            exact ⟨fun h => Option.noConfusion h, fun h => absurd h hno⟩
      · rw [destroy_cons_other env name rs _ ht, ih]
        constructor
        · intro h p hp
          rcases List.mem_cons.1 hp with e | hp'
          · intro hty
            rw [e] at hty
            exact absurd hty ht
          · exact h p hp'
        · intro h p hp
          exact h p (List.mem_cons_of_mem _ hp)
  · intro pre p post hs hpre hty
    obtain ⟨name, rs⟩ := p
    rw [hs, destroy_err_append env _ pre hpre]
    constructor
    · intro e hg hv hn
      rw [destroy_cons_error env name rs _ hty e hg hv hn]
    · intro hg
      rw [destroy_cons_found env name rs _ hty hg]

/-- A run of the check: a contact of another type is passed over, a channel
whose lookup fails with a wrapped validation error is accepted, and a channel
that is still found ends the check before the last resource is looked up. -/
theorem destroy_check_example :
    testAccCheckContactChannelDestroy
      { GetContactChannel := fun id =>
          if id = "gone" then
            some (Error.wrapError "operation error: invalid" (Error.errorString "invalid"))
          else if id = "slow" then some (Error.errorString "timeout")
          else none,
        isValidationException := fun e => decide (e = Error.errorString "invalid"),
        isResourceNotFoundException := fun e => decide (e = Error.errorString "missing"),
        createError := fun id cause => Errorf_s_w "checking destroyed" id cause }
      [("aws_ssmcontacts_contact.c", ⟨"aws_ssmcontacts_contact", "live"⟩),
       ("aws_ssmcontacts_contact_channel.a", ⟨"aws_ssmcontacts_contact_channel", "gone"⟩),
       ("aws_ssmcontacts_contact_channel.b", ⟨"aws_ssmcontacts_contact_channel", "live"⟩),
       ("aws_ssmcontacts_contact_channel.c", ⟨"aws_ssmcontacts_contact_channel", "slow"⟩)]
      = { err := some (Error.wrapError "checking destroyed (live): not destroyed"
                  (Error.errorString "not destroyed")),
          lookups := ["gone", "live"] } := by
  decide

end ssmcontacts

end TerraformProviderAws
